import Mathlib

/-!
# Verification of the streaming market-data layer and its collaborators

Shallow embedding, in Lean 4, of the repository's OHLCV batch collector
(`src/data/ohlcv_collector.py`), the quad-stochastic strategy
(`src/strategies/custom/quad_enhanced_strategy.py`), and the WebSocket
streaming layer whose components (`PriceFeed`, `OrderBookFeed`,
`WebSocketDataManager`) are declared in `src/websocket/__init__.py` but whose
implementation modules are not part of the source tree; those components are
modelled from the specification, as marked on each definition.

Conventions of the embedding:
* Python floats are modelled as exact rationals (`ℚ`); a pandas `NaN` cell is
  `Option.none`, and a comparison against `none` is `false`, matching the
  behaviour of float comparisons with `NaN`.
* A pandas element-wise division by zero is modelled as `none`.
* Fallible collaborators (helper modules that may raise) are modelled as
  `Except`-returning functions; a `try/except` block that swallows the
  exception discards the `Except.error` case.
-/

namespace Spec2Proof

/-! ## PriceFeed (modelled from the spec)

`src/websocket/price_feed.py` is not in the source tree; only its import and
public names appear in `src/websocket/__init__.py`.  The per-symbol cache cell
and the merge rule are modelled from the spec: "a snapshot is overwritten only
by a strictly newer timestamp for the same symbol"; "duplicate timestamps are
treated as no-ops (neither re-applied nor re-notified)"; an accepted update
"notifies all matching subscribers".
-/

/-- Modelled from the spec: `PriceSnapshot` — symbol, last trade price, best
bid, best ask, timestamp, source tag ∈ {stream, rest} (`fromRest`). -/
structure PriceSnapshot where
  symbol : String
  price : ℚ
  bid : ℚ
  ask : ℚ
  ts : ℕ
  fromRest : Bool
deriving DecidableEq, Repr

/-- Modelled from the spec: `PriceFeed.update` on one symbol's cache cell.
Returns the new cell and whether subscribers were notified.  An update whose
timestamp is not strictly newer than the cached one leaves the cell unchanged
and notifies nobody. -/
def priceUpdate (cache : Option PriceSnapshot) (u : PriceSnapshot) :
    Option PriceSnapshot × Bool :=
  match cache with
  | none => (some u, true)
  | some s => if s.ts < u.ts then (some u, true) else (some s, false)

/-- Modelled from the spec: folding a sequence of updates into the cache. -/
def applyUpdates (cache : Option PriceSnapshot) (us : List PriceSnapshot) :
    Option PriceSnapshot :=
  us.foldl (fun c u => (priceUpdate c u).1) cache

/-- A concrete "BTC" snapshot at price `p` and timestamp `t`. -/
def snapAt (p : ℚ) (t : ℕ) : PriceSnapshot := ⟨"BTC", p, p, p, t, false⟩

/-! ## OrderBookFeed (modelled from the spec)

`src/websocket/orderbook_feed.py` is not in the source tree.  The book state
machine is modelled from the spec: `applySnapshot` replaces the book, marks
it valid and resets the cursor; `applyDelta` requires
`sequence == lastSequence + 1`, removes a level on size 0 and upserts it
otherwise, and on a sequence mismatch or a crossing delta marks the book
invalid, discards it and emits a resync request; `getBook` returns
"invalid/unavailable" when the book is not valid.  A snapshot whose levels
are crossed cannot be a "successful" `applySnapshot` (the invariant requires
best bid < best ask after every successful application), so it is likewise
rejected with a resync request. -/

/-- An L2 price level: (price, size). -/
abbrev Level := ℚ × ℚ

/-- Which side of the book a delta level-change addresses. -/
inductive Side
  | bid
  | ask
deriving DecidableEq, Repr

/-- Modelled from the spec: `OrderBook` — bid levels descending by price, ask
levels ascending by price, sequence cursor and last-update timestamp. -/
structure Book where
  bids : List Level
  asks : List Level
  seq : ℕ
  ts : ℕ
deriving DecidableEq, Repr

/-- Modelled from the spec: per-symbol feed state; an invalidated book is
discarded (`book = none`) and `valid` is cleared. -/
structure FeedState where
  book : Option Book
  valid : Bool
deriving DecidableEq, Repr

def initFeed : FeedState := ⟨none, false⟩

/-- Insert keeping the bid side sorted descending by price. -/
def insertDesc (l : Level) : List Level → List Level
  | [] => [l]
  | x :: xs => if x.1 ≤ l.1 then l :: x :: xs else x :: insertDesc l xs

/-- Insert keeping the ask side sorted ascending by price. -/
def insertAsc (l : Level) : List Level → List Level
  | [] => [l]
  | x :: xs => if l.1 ≤ x.1 then l :: x :: xs else x :: insertAsc l xs

def sortDesc (ls : List Level) : List Level := ls.foldr insertDesc []

def sortAsc (ls : List Level) : List Level := ls.foldr insertAsc []

/-- Modelled from the spec: "a level change with size 0 removes that price
level, otherwise upserts it". -/
def applyChange (b : Book) (ch : Side × ℚ × ℚ) : Book :=
  match ch with
  | (Side.bid, p, sz) =>
      let rest := b.bids.filter fun l => l.1 ≠ p
      { b with bids := if sz = 0 then rest else insertDesc (p, sz) rest }
  | (Side.ask, p, sz) =>
      let rest := b.asks.filter fun l => l.1 ≠ p
      { b with asks := if sz = 0 then rest else insertAsc (p, sz) rest }

/-- Best bid ≥ best ask, i.e. the book is crossed (false when a side is
empty). -/
def crossedB (b : Book) : Bool :=
  match b.bids.head?, b.asks.head? with
  | some bb, some ba => decide (ba.1 ≤ bb.1)
  | _, _ => false

/-- Modelled from the spec: `applySnapshot` replaces the local book, marks it
valid and resets the sequence cursor; a crossed snapshot is rejected (book
invalidated, resync requested).  Second component: resync requested. -/
def applySnapshot (_st : FeedState) (bids asks : List Level) (seq ts : ℕ) :
    FeedState × Bool :=
  let b : Book := ⟨sortDesc bids, sortAsc asks, seq, ts⟩
  if crossedB b then (⟨none, false⟩, true) else (⟨some b, true⟩, false)

/-- Outcome of `applyDelta`: the new feed state, whether a resync request was
emitted, and whether the delta was accepted. -/
structure DeltaResult where
  state : FeedState
  resync : Bool
  accepted : Bool
deriving DecidableEq, Repr

/-- Modelled from the spec: `applyDelta` requires `sequence == lastSequence
+ 1`; on success applies the level changes and advances the cursor and
timestamp; on a sequence mismatch, or if the delta would cross the book,
marks the book invalid, discards it and emits a resync request.  While the
book is invalid (or absent) deltas are ignored: no further delta is accepted
and no further resync is emitted until a snapshot resynchronizes the book. -/
def applyDelta (st : FeedState) (changes : List (Side × ℚ × ℚ)) (seq ts : ℕ) :
    DeltaResult :=
  match st.book, st.valid with
  | some b, true =>
      if seq = b.seq + 1 then
        let b' : Book := { changes.foldl applyChange b with seq := seq, ts := ts }
        if crossedB b' then ⟨⟨none, false⟩, true, false⟩
        else ⟨⟨some b', true⟩, false, true⟩
      else ⟨⟨none, false⟩, true, false⟩
  | _, _ => ⟨st, false, false⟩

/-- Modelled from the spec: `getBook` returns an immutable copy of the top
`depth` levels per side, or "invalid/unavailable" (`none`) when the book is
not currently valid. -/
def getBook (st : FeedState) (depth : ℕ) : Option (List Level × List Level) :=
  match st.book, st.valid with
  | some b, true => some (b.bids.take depth, b.asks.take depth)
  | _, _ => none

/-- A message stream applied to one symbol's book. -/
inductive BookOp
  | snap (bids asks : List Level) (seq ts : ℕ)
  | delta (changes : List (Side × ℚ × ℚ)) (seq ts : ℕ)
deriving DecidableEq, Repr

def stepOp (st : FeedState) : BookOp → FeedState
  | .snap bids asks seq ts => (applySnapshot st bids asks seq ts).1
  | .delta changes seq ts => (applyDelta st changes seq ts).state

def runOps (st : FeedState) (ops : List BookOp) : FeedState := ops.foldl stepOp st

/-- Applying a list of deltas (no snapshots), counting emitted resync
requests and accepted deltas. -/
def runDeltas (st : FeedState) :
    List (List (Side × ℚ × ℚ) × ℕ × ℕ) → FeedState × ℕ × ℕ
  | [] => (st, 0, 0)
  | (ch, seq, ts) :: rest =>
      let r := applyDelta st ch seq ts
      let acc := runDeltas r.state rest
      (acc.1, (if r.resync then 1 else 0) + acc.2.1,
        (if r.accepted then 1 else 0) + acc.2.2)

/-- Price-level lookup by price. -/
def lookupLevel (p : ℚ) (ls : List Level) : Option ℚ :=
  (ls.find? fun l => l.1 = p).map Prod.snd

/-- The uncrossed-when-valid invariant. -/
def BookInv (st : FeedState) : Prop :=
  st.valid = true → ∃ b, st.book = some b ∧ crossedB b = false

/-! ## DataManager (modelled from the spec)

`src/websocket/data_manager.py` is not in the source tree; only its public
names (`WebSocketDataManager`, `start_websocket_feeds`, `stop_websocket_feeds`,
`get_current_price`, ...) appear in `src/websocket/__init__.py`.  The
synchronous read facade and the lifecycle operations are modelled from the
spec. -/

/-- Modelled from the spec: result of a strategy-facing read — either a
snapshot (with its staleness flag) or an explicit "unavailable" result.  The
facade is a total function: transport and protocol errors never propagate to
readers. -/
inductive PriceRes
  | ok (s : PriceSnapshot) (stale : Bool)
  | unavailable
deriving DecidableEq, Repr

/-- One symbol's slice of the DataManager read state. -/
structure DMState where
  cache : Option PriceSnapshot
deriving DecidableEq, Repr

/-- Modelled from the spec: the REST fallback path of `getCurrentPrice` —
invoked when the stream snapshot is absent or stale; on success the result is
cached tagged `source = rest` and returned; on failure the read returns the
explicit "unavailable" result.  The third component counts REST `getData`
invocations. -/
def restFallback (st : DMState) (restData : Option PriceSnapshot) :
    DMState × PriceRes × ℕ :=
  match restData with
  | some r =>
      let r' : PriceSnapshot := { r with fromRest := true }
      (⟨some r'⟩, PriceRes.ok r' false, 1)
  | none => (st, PriceRes.unavailable, 1)

/-- Modelled from the spec: `getCurrentPrice(symbol)` — returns the stream
snapshot if present and not stale (`now − ts ≤ ttl`); otherwise invokes the
external REST collaborator's `getData` once (its outcome is `restData`). -/
def getCurrentPrice (st : DMState) (now ttl : ℕ) (restData : Option PriceSnapshot) :
    DMState × PriceRes × ℕ :=
  match st.cache with
  | some s => if now - s.ts ≤ ttl then (st, PriceRes.ok s false, 0)
              else restFallback st restData
  | none => restFallback st restData

/-! ## DataManager lifecycle (modelled from the spec) -/

/-- Modelled from the spec: the DataManager's lifecycle state — whether the
background activity is running, the issued (symbol, channel) subscriptions,
and the connection flag. -/
structure ManagerState where
  started : Bool
  subs : List (String × String)
  connected : Bool
deriving DecidableEq, Repr

/-- The never-started (Stopped) manager state. -/
def initManager : ManagerState := ⟨false, [], false⟩

/-- Modelled from the spec: `start(symbols, channels)` — constructs the
client, issues subscriptions for every configured symbol and begins the
background activity; calling `start()` while already started is a no-op. -/
def managerStart (st : ManagerState) (symbols channels : List String) : ManagerState :=
  if st.started then st
  else ⟨true, (symbols.map fun s => channels.map fun c => (s, c)).flatten, true⟩

/-- Modelled from the spec: `stop()` — closes the connection, waits for the
background activity and releases all feed state; safe to call even if
`start()` was never called. -/
def managerStop (_st : ManagerState) : ManagerState := initManager

/-! ## OHLCV batch collector — `src/data/ohlcv_collector.py`

Translated from the source.  The two helper modules
(`nice_funcs_hyperliquid as hl` and `nice_funcs as n`) are external
collaborators whose import may fail (`Option`) and whose `get_data` call may
raise (`Except`).  `collect_token_data` records every external fetch it
performs so the calls themselves can be reasoned about. -/

/-- `bars_per_day` dictionary from `collect_token_data` (line 82), with its
`.get(timeframe, 24)` default. -/
def bars_per_day (tf : String) : ℚ :=
  if tf = "1m" then 1440 else if tf = "3m" then 480 else if tf = "5m" then 288
  else if tf = "15m" then 96 else if tf = "30m" then 48
  else if tf = "1H" then 24 else if tf = "2H" then 12 else if tf = "4H" then 6
  else if tf = "6H" then 4 else if tf = "8H" then 3 else if tf = "12H" then 2
  else if tf = "1h" then 24 else if tf = "2h" then 12 else if tf = "4h" then 6
  else if tf = "6h" then 4 else if tf = "8h" then 3 else if tf = "12h" then 2
  else if tf = "1D" then 1 else if tf = "3D" then 1/3 else if tf = "1W" then 1/7
  else if tf = "1M" then 1/30
  else if tf = "1d" then 1 else if tf = "3d" then 1/3 else if tf = "1w" then 1/7
  else if tf = "1month" then 1/30
  else 24

/-- Python's `int(q)`: truncation toward zero of an exact rational. -/
def pyInt (q : ℚ) : ℤ := Int.tdiv q.num q.den

/-- `bars_needed = int(days_back * bars_per_day.get(timeframe, 24))`
(line 90; the original `timeframe`, not the converted one, indexes the
dictionary). -/
def bars_needed (days_back : ℚ) (tf : String) : ℤ := pyInt (days_back * bars_per_day tf)

/-- `hl_timeframe = timeframe.replace('H','h').replace('D','d')
.replace('W','w').replace('M','month')` (line 94).  The four chained
single-character replacements never interfere (no replacement output contains
a later pattern character), so they are modelled as one character-by-character
pass. -/
def hl_timeframe (tf : String) : String :=
  String.mk (tf.data.foldr (fun c acc =>
    (if c = 'H' then ['h'] else if c = 'D' then ['d'] else if c = 'W' then ['w']
     else if c = 'M' then "month".data else [c]) ++ acc) [])

/-- One row of returned OHLCV data (opaque for the collector's purposes). -/
abbrev DataRow := ℚ

/-- An external market-data fetch performed by repository code. -/
inductive ExtCall
  | hl_get_data (symbol timeframe : String) (bars : ℤ) (add_indicators : Bool)
  | n_get_data (token : String) (days_back : ℚ) (timeframe : String)
deriving DecidableEq, Repr

/-- The claim's shape: a call to the helper with signature
`get_data(token, days_back, timeframe)`. -/
def is_n_call : ExtCall → Bool
  | ExtCall.n_get_data _ _ _ => true
  | _ => false

/-- `hl.get_data(symbol=…, timeframe=…, bars=…, add_indicators=True)`:
may raise (`Except.error`) or return `None`/data. -/
abbrev HlHelper := String → String → ℤ → Bool → Except Unit (Option (List DataRow))

/-- `n.get_data(token, days_back, timeframe)`: may raise or return
`None`/data. -/
abbrev NHelper := String → ℚ → String → Except Unit (Option (List DataRow))

/-- `exchange in ["HYPERLIQUID", "ASTER", "EXTENDED"]` (line 99). -/
def is_hl_route (exchange : String) : Bool :=
  exchange = "HYPERLIQUID" || exchange = "ASTER" || exchange = "EXTENDED"

/-- Lines 138–178 of `collect_token_data`: the emptiness check (a `None` or
empty result yields `None`), then the CSV-save `try/except` whose outcome
(`saveOutcome`) is swallowed, then `return data`. -/
def finish_collect (d : Option (List DataRow)) (saveOutcome : Except Unit Unit) :
    Option (List DataRow) :=
  match d with
  | none => none
  | some rows =>
      if rows.isEmpty then none
      else
        let _ := saveOutcome
        some rows

/-- `collect_token_data(token, days_back, timeframe, exchange)` (lines
69–184).  Returns the collected data (or `None`) together with the list of
external fetches performed.  A missing helper module, a helper exception, a
`None`/empty result and a CSV-save failure all yield `None` or are swallowed;
the surrounding `try/except` returns `None` on any error. -/
def collect_token_data (hl : Option HlHelper) (n : Option NHelper)
    (saveOutcome : Except Unit Unit) (token : String) (days_back : ℚ)
    (timeframe exchange : String) : Option (List DataRow) × List ExtCall :=
  let bars := bars_needed days_back timeframe
  let hltf := hl_timeframe timeframe
  if is_hl_route exchange then
    match hl with
    | none => (none, [])
    | some f =>
        let call := ExtCall.hl_get_data token hltf bars true
        match f token hltf bars true with
        | Except.error _ => (none, [call])
        | Except.ok d => (finish_collect d saveOutcome, [call])
  else
    match n with
    | none => (none, [])
    | some f =>
        let call := ExtCall.n_get_data token days_back timeframe
        match f token days_back timeframe with
        | Except.error _ => (none, [call])
        | Except.ok d => (finish_collect d saveOutcome, [call])

/-- The single fetch a given route performs when its helper module is
present. -/
def routed_call (token : String) (days_back : ℚ) (timeframe exchange : String) : ExtCall :=
  if is_hl_route exchange then
    ExtCall.hl_get_data token (hl_timeframe timeframe) (bars_needed days_back timeframe) true
  else
    ExtCall.n_get_data token days_back timeframe

/-! ## Quad Rotation strategy — `src/strategies/custom/quad_enhanced_strategy.py`

Translated from the source.  A pandas `Series` is a list of cells where
`none` models `NaN`; rolling operations with window `w` produce `none` for
the first `w − 1` positions and whenever the window contains a `NaN`,
matching pandas' default `min_periods`.  `MONITORED_TOKENS` (from
`src.config`, an external collaborator) and the `BaseStrategy` methods
`validate_signal` / `format_metadata` (from `base_strategy`, not in the
source tree) are parameters of the embedding. -/

/-- A pandas series cell: `none` is `NaN`. -/
abbrev Series := List (Option ℚ)

/-- One OHLCV bar; only `high`, `low`, `close` are read by the strategy. -/
structure Bar where
  high : ℚ
  low : ℚ
  close : ℚ
deriving DecidableEq, Repr

/-- The strategy's view of a DataFrame: its column names and its rows. -/
structure MarketData where
  cols : List String
  rows : List Bar
deriving DecidableEq, Repr

/-- The per-stochastic settings dict entries `{'k': …, 'd': …, 'smooth': …,
'weight': …}` from `__init__` (lines 39–44). -/
structure StochCfg where
  k : ℕ
  d : ℕ
  smooth : ℕ
  weight : ℚ
deriving DecidableEq, Repr

/-- `self.stoch_configs` from `__init__`, in dict insertion order; the
weights 0.2, 0.6, 1.4, 1.8 are the exact rationals 1/5, 3/5, 7/5, 9/5. -/
def stoch_configs : List (String × StochCfg) :=
  [("stoch1", ⟨9, 3, 1, 1/5⟩), ("stoch2", ⟨14, 3, 1, 3/5⟩),
   ("stoch3", ⟨40, 4, 1, 7/5⟩), ("stoch4", ⟨60, 10, 1, 9/5⟩)]

/-- The remaining constructor state of `QuadRotationStrategy.__init__`
(lines 47–60): thresholds, signal requirements and trend-shield settings. -/
structure QuadConfig where
  overbought : ℚ
  oversold : ℚ
  extreme_overbought : ℚ
  extreme_oversold : ℚ
  midline : ℚ
  min_stoch_agreement : ℕ
  use_super_signal : Bool
  use_trend_shield : Bool
  abcd_bars_90 : ℕ
  abcd_bars_10 : ℕ
deriving DecidableEq, Repr

/-- The constructor's concrete values: 80, 20, 90, 10, 50, 3, True, True,
7, 7. -/
def quadInit : QuadConfig := ⟨80, 20, 90, 10, 50, 3, true, true, 7, 7⟩

/-- Minimum of a nonempty list of rationals. -/
def minQ : List ℚ → Option ℚ
  | [] => none
  | x :: xs => some (xs.foldl min x)

/-- Maximum of a nonempty list of rationals. -/
def maxQ : List ℚ → Option ℚ
  | [] => none
  | x :: xs => some (xs.foldl max x)

/-- The window of the last `w` positions ending at index `i`. -/
def windowAt (s : List α) (w i : ℕ) : List α := (s.drop (i + 1 - w)).take w

/-- `series.rolling(window=w).min()`. -/
def rollingMin (w : ℕ) (s : List ℚ) : Series :=
  (List.range s.length).map fun i =>
    if w ≤ i + 1 then minQ (windowAt s w i) else none

/-- `series.rolling(window=w).max()`. -/
def rollingMax (w : ℕ) (s : List ℚ) : Series :=
  (List.range s.length).map fun i =>
    if w ≤ i + 1 then maxQ (windowAt s w i) else none

/-- Collects a window of cells, `none` if any cell is `NaN`. -/
def allSome : List (Option ℚ) → Option (List ℚ)
  | [] => some []
  | none :: _ => none
  | some x :: rest => (allSome rest).map (x :: ·)

/-- `series.rolling(window=w).mean()` on a series that may contain `NaN`:
`NaN` until the window is full and whenever the window contains a `NaN`. -/
def rollingMeanOpt (w : ℕ) (s : Series) : Series :=
  (List.range s.length).map fun i =>
    if w ≤ i + 1 then (allSome (windowAt s w i)).map (fun xs => xs.sum / (w : ℚ))
    else none

/-- Element-wise `100 * (close - low_min) / (high_max - low_min)`; a zero
denominator is modelled as `NaN`. -/
def qdiv100 (c : ℚ) (lo hi : Option ℚ) : Option ℚ :=
  match lo, hi with
  | some l, some h => if h - l = 0 then none else some (100 * (c - l) / (h - l))
  | _, _ => none

def zipWith3 (f : α → β → γ → δ) : List α → List β → List γ → List δ
  | a :: as, b :: bs, c :: cs => f a b c :: zipWith3 f as bs cs
  | _, _, _ => []

def zipWith4 (f : α → β → γ → δ → ε) :
    List α → List β → List γ → List δ → List ε
  | a :: as, b :: bs, c :: cs, d :: ds => f a b c d :: zipWith4 f as bs cs ds
  | _, _, _, _ => []

/-- `calculate_stochastic(data, k_period, d_period, smooth)` (lines 64–79):
`%K = 100 * (close - low_min) / (high_max - low_min)` with rolling extrema,
optional smoothing when `smooth > 1`, and `%D` the `d_period`-rolling mean
of `%K`. -/
def calculate_stochastic (data : MarketData) (k_period d_period smooth : ℕ) :
    Series × Series :=
  let low_min := rollingMin k_period (data.rows.map Bar.low)
  let high_max := rollingMax k_period (data.rows.map Bar.high)
  let raw_k := zipWith3 qdiv100 (data.rows.map Bar.close) low_min high_max
  let stoch_k := if smooth > 1 then rollingMeanOpt smooth raw_k else raw_k
  let stoch_d := rollingMeanOpt d_period stoch_k
  (stoch_k, stoch_d)

/-- The dict `stoch_d_values` keyed `stoch1`…`stoch4`. -/
structure StochD where
  stoch1 : Series
  stoch2 : Series
  stoch3 : Series
  stoch4 : Series
deriving DecidableEq, Repr

/-- The dict's values in insertion order. -/
def stochList (sv : StochD) : List Series := [sv.stoch1, sv.stoch2, sv.stoch3, sv.stoch4]

/-- Looks a series up by its `stoch_configs` key. -/
def svLookup (sv : StochD) (name : String) : Series :=
  if name = "stoch1" then sv.stoch1
  else if name = "stoch2" then sv.stoch2
  else if name = "stoch3" then sv.stoch3
  else sv.stoch4

/-- `total_weight = sum(config['weight'] for config in
self.stoch_configs.values())` (line 83). -/
def total_weight : ℚ := (stoch_configs.map fun p => p.2.weight).sum

/-- `(stoch_values[name] - 50) * weight + 50` element-wise (line 88). -/
def centeredSeries (s : Series) (w : ℚ) : Series :=
  s.map (Option.map fun x => (x - 50) * w + 50)

/-- Cell-wise addition (`NaN` propagates as in pandas). -/
def addCell (x y : Option ℚ) : Option ℚ :=
  match x, y with
  | some u, some v => some (u + v)
  | _, _ => none

/-- Element-wise series addition (`NaN` propagates as in pandas). -/
def seriesAdd (a b : Series) : Series := List.zipWith addCell a b

/-- `pd.Series(0, index=stoch_values['stoch1'].index)` (line 85). -/
def zeroSeries (n : ℕ) : Series := List.replicate n (some 0)

/-- `calculate_weighted_average(stoch_values)` (lines 81–91): accumulates
the weight-centered series over `stoch_configs` and divides by the number of
stochastics (`len(self.stoch_configs)`), not by `total_weight`. -/
def calculate_weighted_average (sv : StochD) : Series :=
  let weighted_sum := stoch_configs.foldl
    (fun acc p => seriesAdd acc (centeredSeries (svLookup sv p.1) p.2.weight))
    (zeroSeries sv.stoch1.length)
  weighted_sum.map (Option.map fun x => x / (stoch_configs.length : ℚ))

/-- The reference definition from the claim: the weight-normalized weighted
average `50 + (Σᵢ wᵢ (sᵢ − 50)) / (Σᵢ wᵢ)` of the four `%D` series. -/
def ref_weighted_average (sv : StochD) : Series :=
  zipWith4 (fun a b c d =>
    match a, b, c, d with
    | some x1, some x2, some x3, some x4 =>
        some (50 + ((1/5) * (x1 - 50) + (3/5) * (x2 - 50) + (7/5) * (x3 - 50)
          + (9/5) * (x4 - 50)) / total_weight)
    | _, _, _, _ => none)
    sv.stoch1 sv.stoch2 sv.stoch3 sv.stoch4

/-- `series.iloc[-1]` on a series known to be nonempty. -/
def iloc1 (s : Series) : Option ℚ := (s.get? (s.length - 1)).join

/-- `series.iloc[-2]` on a series known to have at least two cells. -/
def iloc2 (s : Series) : Option ℚ := (s.get? (s.length - 2)).join

/-- One iteration of `count_stochs_sloping_up_below`: count the series if it
has at least two cells, non-`NaN` endpoints, and is below `level` sloping
up. -/
def slope_up_step (level : ℚ) (cnt : ℕ) (s : Series) : ℕ :=
  if s.length < 2 then cnt
  else match iloc1 s, iloc2 s with
    | some cur, some prev => if cur < level ∧ prev < cur then cnt + 1 else cnt
    | _, _ => cnt

/-- One iteration of `count_stochs_sloping_down_above`. -/
def slope_down_step (level : ℚ) (cnt : ℕ) (s : Series) : ℕ :=
  if s.length < 2 then cnt
  else match iloc1 s, iloc2 s with
    | some cur, some prev => if level < cur ∧ cur < prev then cnt + 1 else cnt
    | _, _ => cnt

/-- `count_stochs_sloping_up_below(stoch_values, level)` (lines 106–117):
how many `%D` series are below `level` and sloping up on their last bar;
series shorter than 2 cells or with `NaN` endpoints are skipped. -/
def count_stochs_sloping_up_below (svs : List Series) (level : ℚ) : ℕ :=
  svs.foldl (slope_up_step level) 0

/-- `count_stochs_sloping_down_above(stoch_values, level)` (lines 93–104). -/
def count_stochs_sloping_down_above (svs : List Series) (level : ℚ) : ℕ :=
  svs.foldl (slope_down_step level) 0

/-- `check_super_signal_up` (lines 135–149): all four `%D` below extreme
oversold and sloping up; any short series or `NaN` endpoint refuses. -/
def check_super_signal_up (cfg : QuadConfig) (svs : List Series) : Bool :=
  if !cfg.use_super_signal then false
  else svs.all fun s =>
    if s.length < 2 then false
    else match iloc1 s, iloc2 s with
      | some cur, some prev => decide (cur < cfg.extreme_oversold) && decide (prev < cur)
      | _, _ => false

/-- `check_super_signal_down` (lines 119–133). -/
def check_super_signal_down (cfg : QuadConfig) (svs : List Series) : Bool :=
  if !cfg.use_super_signal then false
  else svs.all fun s =>
    if s.length < 2 then false
    else match iloc1 s, iloc2 s with
      | some cur, some prev => decide (cfg.extreme_overbought < cur) && decide (cur < prev)
      | _, _ => false

/-- `check_trend_shield_bullish(stoch4_d)` (lines 151–158): `stoch4 %D` above
90 for the last `abcd_bars_90` bars, `NaN` cells skipped by the generator
filter. -/
def check_trend_shield_bullish (cfg : QuadConfig) (stoch4_d : Series) : Bool :=
  if !cfg.use_trend_shield || stoch4_d.length < cfg.abcd_bars_90 then false
  else ((stoch4_d.drop (stoch4_d.length - cfg.abcd_bars_90)).filterMap id).all
    fun v => decide (cfg.extreme_overbought < v)

/-- `check_trend_shield_bearish(stoch4_d)` (lines 160–167). -/
def check_trend_shield_bearish (cfg : QuadConfig) (stoch4_d : Series) : Bool :=
  if !cfg.use_trend_shield || stoch4_d.length < cfg.abcd_bars_10 then false
  else ((stoch4_d.drop (stoch4_d.length - cfg.abcd_bars_10)).filterMap id).all
    fun v => decide (v < cfg.extreme_oversold)

/-- The `metadata.indicators` dict of a signal. -/
structure IndicatorMeta where
  stoch1 : ℚ
  stoch_avg : ℚ
  bullish_count : ℕ
  bearish_count : ℕ
deriving DecidableEq, Repr

/-- The `metadata.confidence_factors` dict of a signal. -/
structure ConfidenceMeta where
  super_signal_up : Bool
  super_signal_down : Bool
  trend_shield_bullish : Bool
  trend_shield_bearish : Bool
deriving DecidableEq, Repr

/-- The `metadata.analysis` dict of a signal. -/
structure AnalysisMeta where
  current_price : ℚ
  signal_type : Option String
  agreement_level : Option ℕ
deriving DecidableEq, Repr

/-- A signal's `metadata` dict. -/
structure SignalMeta where
  strategy_type : String
  indicators : IndicatorMeta
  confidence_factors : ConfidenceMeta
  analysis : AnalysisMeta
deriving DecidableEq, Repr

/-- The signal dict built in `generate_signals` (lines 222–246). -/
structure Signal where
  token : String
  signal : ℚ
  direction : String
  metadata : SignalMeta
deriving DecidableEq, Repr

/-- A float comparison `x <= level` where `x` may be `NaN` (false then). -/
def pyLeLevel (a : Option ℚ) (level : ℚ) : Bool :=
  match a with
  | some x => decide (x ≤ level)
  | none => false

/-- A float comparison `x >= level` where `x` may be `NaN` (false then). -/
def pyGeLevel (a : Option ℚ) (level : ℚ) : Bool :=
  match a with
  | some x => decide (level ≤ x)
  | none => false

/-- The bullish trigger (lines 250–252): `stoch1` crosses above oversold and
is above the weighted average (`prev` may be `NaN`; `cur` and `avg` are
non-`NaN` by the guard at line 206). -/
def bullish_trigger (cfg : QuadConfig) (prev : Option ℚ) (cur avg : ℚ) : Bool :=
  pyLeLevel prev cfg.oversold && decide (cfg.oversold < cur) && decide (avg < cur)

/-- The bearish trigger (lines 274–276). -/
def bearish_trigger (cfg : QuadConfig) (prev : Option ℚ) (cur avg : ℚ) : Bool :=
  pyGeLevel prev cfg.overbought && decide (cur < cfg.overbought) && decide (cur < avg)

/-- `1.0 if super else 0.7 + (count / 4 * 0.3)` (lines 261, 285). -/
def strength (super : Bool) (count : ℕ) : ℚ :=
  if super then 1 else 7/10 + (count : ℚ) / 4 * (3/10)

/-- Lines 200–300 of `generate_signals`, for one token whose data passed the
`None`/empty/columns checks: reads the current values, skips on `NaN`
(line 206), counts agreements, checks super signals and trend shields,
builds the signal dict and applies the bullish then the bearish branch;
returns the signal when its direction is no longer `NEUTRAL`. -/
def build_signal (cfg : QuadConfig) (sv : StochD) (current_price : ℚ)
    (token : String) : Option Signal :=
  let stoch_avg := calculate_weighted_average sv
  match iloc1 sv.stoch1, iloc1 stoch_avg with
  | some stoch1_current, some stoch_avg_current =>
      let stoch1_previous := iloc2 sv.stoch1
      let svs := stochList sv
      let bullish_count := count_stochs_sloping_up_below svs cfg.oversold
      let bearish_count := count_stochs_sloping_down_above svs cfg.overbought
      let super_up := check_super_signal_up cfg svs
      let super_down := check_super_signal_down cfg svs
      let shield_bull := check_trend_shield_bullish cfg sv.stoch4
      let shield_bear := check_trend_shield_bearish cfg sv.stoch4
      let base : Signal :=
        ⟨token, 0, "NEUTRAL",
          ⟨"quad_rotation",
           ⟨stoch1_current, stoch_avg_current, bullish_count, bearish_count⟩,
           ⟨super_up, super_down, shield_bull, shield_bear⟩,
           ⟨current_price, none, none⟩⟩⟩
      let sig1 :=
        if bullish_trigger cfg stoch1_previous stoch1_current stoch_avg_current
            && (decide (cfg.min_stoch_agreement ≤ bullish_count) || super_up)
            && !shield_bear then
          { base with
            signal := strength super_up bullish_count
            direction := "BUY"
            metadata := { base.metadata with
              analysis := ⟨current_price,
                some (if super_up then "SUPER UP"
                      else toString bullish_count ++ "/4 Agreement"),
                some bullish_count⟩ } }
        else base
      let sig2 :=
        if bearish_trigger cfg stoch1_previous stoch1_current stoch_avg_current
            && (decide (cfg.min_stoch_agreement ≤ bearish_count) || super_down)
            && !shield_bull then
          { sig1 with
            signal := strength super_down bearish_count
            direction := "SELL"
            metadata := { sig1.metadata with
              analysis := ⟨current_price,
                some (if super_down then "SUPER DOWN"
                      else toString bearish_count ++ "/4 Agreement"),
                some bearish_count⟩ } }
        else sig1
      if sig2.direction ≠ "NEUTRAL" then some sig2 else none
  | _, _ => none

/-- `['open', 'high', 'low', 'close']` all present in `data.columns`
(line 179). -/
def has_ohlc (data : MarketData) : Bool :=
  ["open", "high", "low", "close"].all fun c => data.cols.contains c

/-- The `%D` series for one `stoch_configs` entry (lines 186–194). -/
def compute_stoch_d (data : MarketData) (c : StochCfg) : Series :=
  (calculate_stochastic data c.k c.d c.smooth).2

/-- The `stoch_configs` entry for a key (dict lookup). -/
def stochCfgLookup (name : String) : StochCfg :=
  ((stoch_configs.find? fun p => p.1 = name).map Prod.snd).getD ⟨9, 3, 1, 1/5⟩

/-- One iteration of the token loop of `generate_signals` (lines 172–300),
applied to the fetched data: `None` data and empty data and missing columns
`continue` (`ok none`); fewer than two rows raise `IndexError` at
`iloc[-2]` (line 201), caught by the surrounding `try` (`error`);
otherwise the signal is built, validated and its metadata formatted. -/
def token_signal (cfg : QuadConfig) (validate : Signal → Bool)
    (format_metadata : SignalMeta → SignalMeta) (dataOpt : Option MarketData)
    (token : String) : Except Unit (Option Signal) :=
  match dataOpt with
  | none => Except.ok none
  | some data =>
      if data.rows.isEmpty then Except.ok none
      else if !has_ohlc data then Except.ok none
      else if data.rows.length < 2 then Except.error ()
      else
        let sv : StochD :=
          ⟨compute_stoch_d data (stochCfgLookup "stoch1"),
           compute_stoch_d data (stochCfgLookup "stoch2"),
           compute_stoch_d data (stochCfgLookup "stoch3"),
           compute_stoch_d data (stochCfgLookup "stoch4")⟩
        let current_price := ((data.rows.map Bar.close).getLast?).getD 0
        match build_signal cfg sv current_price token with
        | none => Except.ok none
        | some sig =>
            if validate sig then
              Except.ok (some { sig with metadata := format_metadata sig.metadata })
            else Except.ok none

/-- The `for token in MONITORED_TOKENS` loop: each token's data is fetched
by `n.get_data(token, days_back=5, timeframe='15m')` (line 174); the first
non-`NEUTRAL` validated signal is returned; an exception aborts the loop. -/
def signals_loop (cfg : QuadConfig) (validate : Signal → Bool)
    (format_metadata : SignalMeta → SignalMeta)
    (get_data : String → ℚ → String → Option MarketData) :
    List String → Except Unit (Option Signal)
  | [] => Except.ok none
  | t :: rest =>
      match token_signal cfg validate format_metadata (get_data t 5 "15m") t with
      | Except.error e => Except.error e
      | Except.ok (some s) => Except.ok (some s)
      | Except.ok none => signals_loop cfg validate format_metadata get_data rest

/-- `generate_signals` (lines 169–308): iterates over the monitored tokens
inside a `try/except` that returns `None` on any exception.  The strategy
object (`cfg`) is returned unchanged alongside the result: the method
assigns no attribute. -/
def generate_signals (cfg : QuadConfig) (monitored_tokens : List String)
    (validate : Signal → Bool) (format_metadata : SignalMeta → SignalMeta)
    (get_data : String → ℚ → String → Option MarketData) :
    QuadConfig × Option Signal :=
  (cfg,
    match signals_loop cfg validate format_metadata get_data monitored_tokens with
    | Except.error _ => none
    | Except.ok r => r)

/-- A concrete four-stochastic `%D` state: `stoch1` crosses above oversold
while `stoch2`–`stoch4` sit below it sloping up (3/4 agreement, no super
signal, no shield). -/
def wsv : StochD :=
  ⟨[some 15, some 30], [some 10, some 15], [some 10, some 15], [some 12, some 15]⟩

/-- The signal the strategy builds from `wsv`: a BUY of strength
`0.925 = 0.7 + 3/4 · 0.3`. -/
def wsig : Signal :=
  ⟨"BTC", 37/40, "BUY",
    ⟨"quad_rotation", ⟨30, 63/4, 3, 0⟩, ⟨false, false, false, false⟩,
     ⟨100, some "3/4 Agreement", some 3⟩⟩⟩

/-! ## Theorems -/

theorem applyUpdates_cons (c : Option PriceSnapshot) (u : PriceSnapshot)
    (us : List PriceSnapshot) :
    applyUpdates c (u :: us) = applyUpdates (priceUpdate c u).1 us := rfl

theorem applyUpdates_isSome (us : List PriceSnapshot) (c : PriceSnapshot) :
    (applyUpdates (some c) us).isSome := by
  induction us generalizing c with
  | nil => rfl
  | cons u rest ih =>
    rw [applyUpdates_cons]
    unfold priceUpdate
    by_cases h : c.ts < u.ts
    · simpa [h] using ih u
    · simpa [h] using ih c

theorem applyUpdates_char (us : List PriceSnapshot) (c s : PriceSnapshot)
    (h : applyUpdates (some c) us = some s) :
    (s = c ∨ s ∈ us) ∧ c.ts ≤ s.ts ∧ ∀ v ∈ us, v.ts ≤ s.ts := by
  induction us generalizing c with
  | nil =>
    simp only [applyUpdates, List.foldl_nil, Option.some.injEq] at h
    subst h
    simp
  | cons u rest ih =>
    rw [applyUpdates_cons] at h
    unfold priceUpdate at h
    by_cases hts : c.ts < u.ts
    · simp only [hts, if_pos] at h
      obtain ⟨hmem, hle, hall⟩ := ih u h
      refine ⟨?_, ?_, ?_⟩
      · rcases hmem with h1 | h1
        · exact Or.inr (by simp [h1])
        · exact Or.inr (List.mem_cons_of_mem _ h1)
      · exact le_trans (le_of_lt hts) hle
      · intro v hv
        rcases List.mem_cons.mp hv with h1 | h1
        · subst h1; exact hle
        · exact hall v h1
    · simp only [hts, if_neg, not_false_iff] at h
      obtain ⟨hmem, hle, hall⟩ := ih c h
      refine ⟨?_, hle, ?_⟩
      · rcases hmem with h1 | h1
        · exact Or.inl h1
        · exact Or.inr (List.mem_cons_of_mem _ h1)
      · intro v hv
        rcases List.mem_cons.mp hv with h1 | h1
        · subst h1
          exact le_trans (le_of_not_lt hts) hle
        · exact hall v h1

/-- C1.  The per-symbol price-cache merge is order-independent and idempotent:
for every sequence of updates containing an update `u` whose timestamp is
strictly greater than that of every other update, every permutation of the
sequence leaves `u` in the cache; and an update whose timestamp is not
strictly newer than the cached snapshot leaves the cache unchanged and
triggers no subscriber notification. -/
theorem C1_price_merge_order_independent
    (us us' : List PriceSnapshot) (u : PriceSnapshot)
    (hperm : us.Perm us') (hmem : u ∈ us)
    (hmax : ∀ v ∈ us, v ≠ u → v.ts < u.ts) :
    applyUpdates none us' = some u ∧
    ∀ (s w : PriceSnapshot), w.ts ≤ s.ts →
      priceUpdate (some s) w = (some s, false) := by
  constructor
  · have hmem' : u ∈ us' := hperm.mem_iff.mp hmem
    obtain ⟨v, rest, hcons⟩ : ∃ v rest, us' = v :: rest := by
      cases us' with
      | nil => exact absurd hmem' (List.not_mem_nil u)
      | cons v rest => exact ⟨v, rest, rfl⟩
    subst hcons
    have hrun : applyUpdates none (v :: rest) = applyUpdates (some v) rest := rfl
    obtain ⟨s, hs⟩ := Option.isSome_iff_exists.mp (applyUpdates_isSome rest v)
    obtain ⟨hsmem, _, hall⟩ := applyUpdates_char rest v s hs
    have hs_in : s ∈ v :: rest := by
      rcases hsmem with h1 | h1
      · simp [h1]
      · exact List.mem_cons_of_mem _ h1
    have hs_in_us : s ∈ us := hperm.mem_iff.mpr hs_in
    have hu_le : u.ts ≤ s.ts := by
      rcases List.mem_cons.mp hmem' with h1 | h1
      · subst h1; exact (applyUpdates_char rest u s hs).2.1
      · exact hall u h1
    have : s = u := by
      by_contra hne
      exact absurd hu_le (not_le_of_lt (hmax s hs_in_us hne))
    rw [hrun, hs, this]
  · intro s w hle
    unfold priceUpdate
    simp [not_lt_of_le hle]

/-- Witness for C1 at a concrete out-of-order update sequence (the spec's
scenario 100 → 101 → out-of-order older tick → 102, permuted). -/
theorem C1_witness :
    applyUpdates none [snapAt 102 4, snapAt 100 1, snapAt 99 3, snapAt 101 2]
      = some (snapAt 102 4) ∧
    priceUpdate (some (snapAt 102 4)) (snapAt 99 3) = (some (snapAt 102 4), false) := by
  have h := C1_price_merge_order_independent
    [snapAt 100 1, snapAt 101 2, snapAt 99 3, snapAt 102 4]
    [snapAt 102 4, snapAt 100 1, snapAt 99 3, snapAt 101 2]
    (snapAt 102 4) (by decide) (by decide) (by decide)
  exact ⟨h.1, h.2 (snapAt 102 4) (snapAt 99 3) (by decide)⟩

theorem bookInv_step (st : FeedState) (op : BookOp) (h : BookInv st) :
    BookInv (stepOp st op) := by
  cases op with
  | snap bids asks seq ts =>
    simp only [stepOp, applySnapshot]
    by_cases hc : crossedB ⟨sortDesc bids, sortAsc asks, seq, ts⟩
    · simp [hc, BookInv]
    · simp only [hc, Bool.false_eq_true, if_false, if_neg]
      intro _
      exact ⟨_, rfl, by simpa using hc⟩
  | delta changes seq ts =>
    obtain ⟨bk, v⟩ := st
    cases bk with
    | none => cases v <;> exact h
    | some b =>
      cases v with
      | false => exact h
      | true =>
        simp only [stepOp, applyDelta]
        by_cases hs : seq = b.seq + 1
        · subst hs
          simp only [if_pos rfl]
          by_cases hc : crossedB { changes.foldl applyChange b with seq := b.seq + 1, ts := ts }
          · simp [hc, BookInv]
          · simp only [hc, Bool.false_eq_true, if_false, if_neg]
            intro _
            exact ⟨_, rfl, by simpa using hc⟩
        · simp [hs, BookInv]

theorem bookInv_run (st : FeedState) (ops : List BookOp) (h : BookInv st) :
    BookInv (runOps st ops) := by
  induction ops generalizing st with
  | nil => exact h
  | cons op rest ih => exact ih _ (bookInv_step st op h)

theorem take_head? {α : Type} (d : ℕ) (l : List α) (x : α)
    (h : (l.take d).head? = some x) : l.head? = some x := by
  cases d with
  | zero => simp at h
  | succ n =>
    cases l with
    | nil => simp at h
    | cons a as => simpa using h

/-- C2.  The order book is never crossed when readable: every book reachable
by snapshot/delta sequences and marked valid satisfies best bid < best ask,
`getBook` never returns a crossed book, an invalid book is excluded from
reads, and every successful `applySnapshot` or `applyDelta` leaves a
non-crossed book. -/
theorem C2_book_never_crossed :
    (∀ (ops : List BookOp) (depth : ℕ) (bids asks : List Level),
      getBook (runOps initFeed ops) depth = some (bids, asks) →
      ∀ bb ba, bids.head? = some bb → asks.head? = some ba → bb.1 < ba.1) ∧
    (∀ (st : FeedState) (depth : ℕ), st.valid = false → getBook st depth = none) ∧
    (∀ (st : FeedState) (bids asks : List Level) (seq ts : ℕ) b,
      (applySnapshot st bids asks seq ts).1.book = some b → crossedB b = false) ∧
    (∀ (st : FeedState) (changes : List (Side × ℚ × ℚ)) (seq ts : ℕ),
      (applyDelta st changes seq ts).accepted = true →
      ∃ b, (applyDelta st changes seq ts).state.book = some b ∧ crossedB b = false) := by
  refine ⟨?_, ?_, ?_, ?_⟩
  · intro ops depth bids asks hget bb ba hbb hba
    have hinv : BookInv (runOps initFeed ops) :=
      bookInv_run initFeed ops (by intro h; cases h)
    unfold getBook at hget
    cases hbook : (runOps initFeed ops).book with
    | none => rw [hbook] at hget; simp at hget
    | some b =>
      cases hv : (runOps initFeed ops).valid with
      | false => rw [hbook, hv] at hget; simp at hget
      | true =>
        rw [hbook, hv] at hget
        simp only [Option.some.injEq, Prod.mk.injEq] at hget
        obtain ⟨b', hb', hcross⟩ := hinv hv
        rw [hbook] at hb'
        cases hb'
        have hbh : b.bids.head? = some bb := take_head? depth _ bb (hget.1 ▸ hbb)
        have hah : b.asks.head? = some ba := take_head? depth _ ba (hget.2 ▸ hba)
        unfold crossedB at hcross
        rw [hbh, hah] at hcross
        simpa using hcross
  · intro st depth hv
    unfold getBook
    cases hb : st.book <;> simp [hv]
  · intro st bids asks seq ts b hb
    unfold applySnapshot at hb
    by_cases hc : crossedB ⟨sortDesc bids, sortAsc asks, seq, ts⟩
    · simp [hc] at hb
    · simp only [hc, Bool.false_eq_true, if_false, if_neg, Option.some.injEq] at hb
      rw [← hb]
      simpa using hc
  · intro st changes seq ts hacc
    obtain ⟨bk, v⟩ := st
    cases bk with
    | none => cases v <;> simp [applyDelta] at hacc
    | some b =>
      cases v with
      | false => simp [applyDelta] at hacc
      | true =>
        unfold applyDelta at hacc ⊢
        by_cases hs : seq = b.seq + 1
        · subst hs
          simp only [if_pos rfl] at hacc ⊢
          by_cases hc : crossedB { changes.foldl applyChange b with seq := b.seq + 1, ts := ts }
          · simp [hc] at hacc
          · simp only [hc, Bool.false_eq_true, if_false, if_neg]
            exact ⟨_, rfl, by simpa using hc⟩
        · simp [hs] at hacc

/-- Witness for C2: the spec's scenario — snapshot {bid (100,1), ask (101,1)}
at seq 5, then delta seq 6 removing bid (100,1) and adding bid (99,2); the
returned best bid 99 is strictly below the best ask 101. -/
theorem C2_witness :
    getBook (runOps initFeed
      [BookOp.snap [(100, 1)] [(101, 1)] 5 0,
       BookOp.delta [(Side.bid, 100, 0), (Side.bid, 99, 2)] 6 1]) 10
      = some ([(99, 2)], [(101, 1)]) ∧ (99 : ℚ) < 101 := by
  constructor
  · decide
  · exact C2_book_never_crossed.1
      [BookOp.snap [(100, 1)] [(101, 1)] 5 0,
       BookOp.delta [(Side.bid, 100, 0), (Side.bid, 99, 2)] 6 1]
      10 [(99, 2)] [(101, 1)] (by decide) (99, 2) (101, 1) rfl rfl

theorem lookupLevel_cons (p : ℚ) (x : Level) (xs : List Level) :
    lookupLevel p (x :: xs) = if x.1 = p then some x.2 else lookupLevel p xs := by
  by_cases hx : x.1 = p
  · simp [lookupLevel, List.find?_cons_of_pos, hx]
  · simp [lookupLevel, List.find?_cons_of_neg, hx]

theorem lookupLevel_filter_self (p : ℚ) (ls : List Level) :
    lookupLevel p (ls.filter fun l => l.1 ≠ p) = none := by
  induction ls with
  | nil => rfl
  | cons x xs ih =>
    by_cases hx : x.1 = p
    · simpa [List.filter_cons, hx] using ih
    · simpa [List.filter_cons, hx, lookupLevel_cons] using ih

theorem lookupLevel_filter_other (p q : ℚ) (hq : q ≠ p) (ls : List Level) :
    lookupLevel q (ls.filter fun l => l.1 ≠ p) = lookupLevel q ls := by
  induction ls with
  | nil => rfl
  | cons x xs ih =>
    simp only [List.filter_cons]
    by_cases hx : x.1 = p
    · have hxq : x.1 ≠ q := by rw [hx]; exact fun h => hq h.symm
      have hd : (decide ¬x.1 = p) = false := by simp [hx]
      rw [hd, if_neg Bool.false_ne_true, ih, lookupLevel_cons, if_neg hxq]
    · have hd : (decide ¬x.1 = p) = true := by simp [hx]
      rw [hd, if_pos rfl, lookupLevel_cons, lookupLevel_cons]
      by_cases hxq : x.1 = q
      · rw [if_pos hxq, if_pos hxq]
      · rw [if_neg hxq, if_neg hxq, ih]

theorem lookupLevel_insertDesc_self (p sz : ℚ) (ls : List Level)
    (h : ∀ l ∈ ls, l.1 ≠ p) :
    lookupLevel p (insertDesc (p, sz) ls) = some sz := by
  induction ls with
  | nil => simp [insertDesc, lookupLevel_cons]
  | cons x xs ih =>
    unfold insertDesc
    by_cases hle : x.1 ≤ p
    · simp [hle, lookupLevel_cons]
    · have hx : x.1 ≠ p := h x (List.mem_cons_self x xs)
      simp only [hle, if_false, if_neg, lookupLevel_cons, hx]
      exact ih fun l hl => h l (List.mem_cons_of_mem x hl)

theorem lookupLevel_insertAsc_self (p sz : ℚ) (ls : List Level)
    (h : ∀ l ∈ ls, l.1 ≠ p) :
    lookupLevel p (insertAsc (p, sz) ls) = some sz := by
  induction ls with
  | nil => simp [insertAsc, lookupLevel_cons]
  | cons x xs ih =>
    unfold insertAsc
    by_cases hle : p ≤ x.1
    · simp [hle, lookupLevel_cons]
    · have hx : x.1 ≠ p := h x (List.mem_cons_self x xs)
      simp only [hle, if_false, if_neg, lookupLevel_cons, hx]
      exact ih fun l hl => h l (List.mem_cons_of_mem x hl)

theorem lookupLevel_insertDesc_other (p q sz : ℚ) (hq : q ≠ p) (ls : List Level) :
    lookupLevel q (insertDesc (p, sz) ls) = lookupLevel q ls := by
  induction ls with
  | nil =>
    show lookupLevel q [(p, sz)] = lookupLevel q []
    rw [lookupLevel_cons, if_neg (Ne.symm hq)]
  | cons x xs ih =>
    unfold insertDesc
    by_cases hle : x.1 ≤ p
    · rw [if_pos hle, lookupLevel_cons, if_neg (Ne.symm hq)]
    · rw [if_neg hle, lookupLevel_cons, lookupLevel_cons]
      by_cases hxq : x.1 = q
      · rw [if_pos hxq, if_pos hxq]
      · rw [if_neg hxq, if_neg hxq, ih]

theorem lookupLevel_insertAsc_other (p q sz : ℚ) (hq : q ≠ p) (ls : List Level) :
    lookupLevel q (insertAsc (p, sz) ls) = lookupLevel q ls := by
  induction ls with
  | nil =>
    show lookupLevel q [(p, sz)] = lookupLevel q []
    rw [lookupLevel_cons, if_neg (Ne.symm hq)]
  | cons x xs ih =>
    unfold insertAsc
    by_cases hle : p ≤ x.1
    · rw [if_pos hle, lookupLevel_cons, if_neg (Ne.symm hq)]
    · rw [if_neg hle, lookupLevel_cons, lookupLevel_cons]
      by_cases hxq : x.1 = q
      · rw [if_pos hxq, if_pos hxq]
      · rw [if_neg hxq, if_neg hxq, ih]

theorem applyDelta_invalid (st : FeedState) (changes : List (Side × ℚ × ℚ))
    (seq ts : ℕ) (hv : st.valid = false) :
    applyDelta st changes seq ts = ⟨st, false, false⟩ := by
  obtain ⟨bk, v⟩ := st
  cases bk <;> cases v <;> first | rfl | exact absurd hv (by simp)

theorem runDeltas_invalid (ds : List (List (Side × ℚ × ℚ) × ℕ × ℕ))
    (st : FeedState) (hv : st.valid = false) :
    runDeltas st ds = (st, 0, 0) := by
  induction ds generalizing st with
  | nil => rfl
  | cons d rest ih =>
    obtain ⟨ch, seq, ts⟩ := d
    simp [runDeltas, applyDelta_invalid st ch seq ts hv, ih st hv]

/-- C3.  A delta whose sequence number is not `lastSequence + 1` marks the
book invalid, discards it, and emits a resync request; over any following
run of deltas no further delta is accepted and no further resync is emitted
(exactly one resync in total for the gap trace); a successful delta advances
the sequence cursor and timestamp; and a level change with size 0 removes
that price level while a non-zero size upserts it, leaving other levels
unchanged. -/
theorem C3_sequence_gap_resync :
    (∀ (st : FeedState) (b : Book) (changes : List (Side × ℚ × ℚ)) (seq ts : ℕ),
      st.book = some b → st.valid = true → seq ≠ b.seq + 1 →
      applyDelta st changes seq ts = ⟨⟨none, false⟩, true, false⟩) ∧
    (∀ (st : FeedState) (b : Book) (changes : List (Side × ℚ × ℚ)) (seq ts : ℕ)
        (ds : List (List (Side × ℚ × ℚ) × ℕ × ℕ)),
      st.book = some b → st.valid = true → seq ≠ b.seq + 1 →
      runDeltas st ((changes, seq, ts) :: ds) = (⟨none, false⟩, 1, 0)) ∧
    (∀ (st : FeedState) (b : Book) (changes : List (Side × ℚ × ℚ)) (seq ts : ℕ),
      st.book = some b → st.valid = true → seq = b.seq + 1 →
      crossedB { changes.foldl applyChange b with seq := seq, ts := ts } = false →
      ∃ b', (applyDelta st changes seq ts).state = ⟨some b', true⟩ ∧
        b'.seq = seq ∧ b'.ts = ts ∧
        (applyDelta st changes seq ts).resync = false ∧
        (applyDelta st changes seq ts).accepted = true) ∧
    (∀ (b : Book) (p sz : ℚ),
      (sz = 0 → lookupLevel p (applyChange b (Side.bid, p, sz)).bids = none ∧
                lookupLevel p (applyChange b (Side.ask, p, sz)).asks = none) ∧
      (sz ≠ 0 → lookupLevel p (applyChange b (Side.bid, p, sz)).bids = some sz ∧
                lookupLevel p (applyChange b (Side.ask, p, sz)).asks = some sz) ∧
      (∀ q, q ≠ p →
        lookupLevel q (applyChange b (Side.bid, p, sz)).bids = lookupLevel q b.bids ∧
        lookupLevel q (applyChange b (Side.ask, p, sz)).asks = lookupLevel q b.asks)) := by
  refine ⟨?_, ?_, ?_, ?_⟩
  · intro st b changes seq ts hb hv hs
    obtain ⟨bk, v⟩ := st
    simp only at hb hv
    subst hb hv
    simp [applyDelta, hs]
  · intro st b changes seq ts ds hb hv hs
    obtain ⟨bk, v⟩ := st
    simp only at hb hv
    subst hb hv
    simp [runDeltas, applyDelta, hs, runDeltas_invalid ds ⟨none, false⟩ rfl]
  · intro st b changes seq ts hb hv hs hc
    obtain ⟨bk, v⟩ := st
    simp only at hb hv
    subst hb hv hs
    simp only [applyDelta, if_pos rfl, hc, Bool.false_eq_true, if_false, if_neg]
    exact ⟨_, rfl, rfl, rfl, rfl, rfl⟩
  · intro b p sz
    refine ⟨?_, ?_, ?_⟩
    · intro hz
      subst hz
      constructor
      · simpa [applyChange] using lookupLevel_filter_self p b.bids
      · simpa [applyChange] using lookupLevel_filter_self p b.asks
    · intro hz
      constructor
      · have hmem : ∀ l ∈ b.bids.filter (fun l => l.1 ≠ p), l.1 ≠ p := by
          intro l hl
          simpa using (List.of_mem_filter hl)
        simpa [applyChange, hz] using lookupLevel_insertDesc_self p sz _ hmem
      · have hmem : ∀ l ∈ b.asks.filter (fun l => l.1 ≠ p), l.1 ≠ p := by
          intro l hl
          simpa using (List.of_mem_filter hl)
        simpa [applyChange, hz] using lookupLevel_insertAsc_self p sz _ hmem
    · intro q hq
      constructor
      · by_cases hz : sz = 0
        · simpa [applyChange, hz] using lookupLevel_filter_other p q hq b.bids
        · simp only [applyChange, hz, if_false, if_neg]
          rw [lookupLevel_insertDesc_other p q sz hq]
          exact lookupLevel_filter_other p q hq b.bids
      · by_cases hz : sz = 0
        · simpa [applyChange, hz] using lookupLevel_filter_other p q hq b.asks
        · simp only [applyChange, hz, if_false, if_neg]
          rw [lookupLevel_insertAsc_other p q sz hq]
          exact lookupLevel_filter_other p q hq b.asks

/-- Witness for C3: a valid book at sequence 5 receives a delta at sequence 7
(a gap) followed by two more deltas; the book is invalidated and exactly one
resync request is emitted, with no delta accepted. -/
theorem C3_witness :
    runDeltas ⟨some ⟨[(100, 1)], [(101, 1)], 5, 0⟩, true⟩
      [([(Side.bid, 99, 1)], 7, 1), ([(Side.bid, 98, 1)], 8, 2),
       ([(Side.ask, 102, 1)], 9, 3)]
      = (⟨none, false⟩, 1, 0) :=
  C3_sequence_gap_resync.2.1 ⟨some ⟨[(100, 1)], [(101, 1)], 5, 0⟩, true⟩
    ⟨[(100, 1)], [(101, 1)], 5, 0⟩ [(Side.bid, 99, 1)] 7 1
    [([(Side.bid, 98, 1)], 8, 2), ([(Side.ask, 102, 1)], 9, 3)]
    rfl rfl (by decide)

/-- C4.  The read facade: a present-and-fresh snapshot is returned from the
stream with no REST call; a stale or absent snapshot triggers exactly one
REST `getData` call whose successful result is cached and returned tagged
`source = rest`; when neither the stream nor the REST fallback can produce
data the read returns the explicit "unavailable" result, which is distinct
from every valid-but-stale result. -/
theorem C4_read_facade_total :
    (∀ (st : DMState) (now ttl : ℕ) (rest : Option PriceSnapshot) (s : PriceSnapshot),
      st.cache = some s → now - s.ts ≤ ttl →
      getCurrentPrice st now ttl rest = (st, PriceRes.ok s false, 0)) ∧
    (∀ (st : DMState) (now ttl : ℕ) (r : PriceSnapshot),
      (st.cache = none ∨ ∃ s, st.cache = some s ∧ ¬(now - s.ts ≤ ttl)) →
      getCurrentPrice st now ttl (some r) =
        (⟨some { r with fromRest := true }⟩,
         PriceRes.ok { r with fromRest := true } false, 1) ∧
      ({ r with fromRest := true } : PriceSnapshot).fromRest = true) ∧
    (∀ (st : DMState) (now ttl : ℕ),
      (st.cache = none ∨ ∃ s, st.cache = some s ∧ ¬(now - s.ts ≤ ttl)) →
      getCurrentPrice st now ttl none = (st, PriceRes.unavailable, 1)) ∧
    (∀ (s : PriceSnapshot) (b : Bool), PriceRes.unavailable ≠ PriceRes.ok s b) := by
  refine ⟨?_, ?_, ?_, ?_⟩
  · intro st now ttl rest s hc hf
    obtain ⟨c⟩ := st
    simp only at hc
    subst hc
    simp [getCurrentPrice, hf]
  · intro st now ttl r hc
    obtain ⟨c⟩ := st
    rcases hc with h | ⟨s, hs, hstale⟩
    · simp only at h
      subst h
      exact ⟨rfl, rfl⟩
    · simp only at hs
      subst hs
      simp [getCurrentPrice, restFallback, hstale]
  · intro st now ttl hc
    obtain ⟨c⟩ := st
    rcases hc with h | ⟨s, hs, hstale⟩
    · simp only at h
      subst h
      rfl
    · simp only at hs
      subst hs
      simp [getCurrentPrice, restFallback, hstale]
  · intro s b h
    cases h

/-- Witness for C4: the spec's scenario — no cached price younger than the
TTL for "ETH", the REST fallback is invoked exactly once and its result is
tagged `source = rest`; with the REST helper also failing, the read yields
the explicit "unavailable" result. -/
theorem C4_witness :
    getCurrentPrice ⟨some ⟨"ETH", 3000, 2999, 3001, 2, false⟩⟩ 100 5
        (some ⟨"ETH", 3005, 3004, 3006, 100, false⟩) =
      (⟨some ⟨"ETH", 3005, 3004, 3006, 100, true⟩⟩,
       PriceRes.ok ⟨"ETH", 3005, 3004, 3006, 100, true⟩ false, 1) ∧
    getCurrentPrice ⟨some ⟨"ETH", 3000, 2999, 3001, 2, false⟩⟩ 100 5 none =
      (⟨some ⟨"ETH", 3000, 2999, 3001, 2, false⟩⟩, PriceRes.unavailable, 1) := by
  constructor
  · exact (C4_read_facade_total.2.1 ⟨some ⟨"ETH", 3000, 2999, 3001, 2, false⟩⟩ 100 5
      ⟨"ETH", 3005, 3004, 3006, 100, false⟩
      (Or.inr ⟨_, rfl, by decide⟩)).1
  · exact C4_read_facade_total.2.2.1 ⟨some ⟨"ETH", 3000, 2999, 3001, 2, false⟩⟩ 100 5
      (Or.inr ⟨_, rfl, by decide⟩)

/-- C6.  DataManager lifecycle operations are safe to repeat: `start()` on an
already-started manager is a no-op, and `stop()` on a never-started manager
completes and leaves the Stopped state unchanged. -/
theorem C6_lifecycle_idempotent :
    (∀ (st : ManagerState) (symbols channels : List String),
      st.started = true → managerStart st symbols channels = st) ∧
    managerStop initManager = initManager := by
  constructor
  · intro st symbols channels h
    simp [managerStart, h]
  · rfl

/-- Witness for C6 at a concrete started manager. -/
theorem C6_witness :
    managerStart ⟨true, [("BTC", "trades")], true⟩ ["ETH"] ["l2Book"] =
      ⟨true, [("BTC", "trades")], true⟩ :=
  C6_lifecycle_idempotent.1 ⟨true, [("BTC", "trades")], true⟩ ["ETH"] ["l2Book"] rfl

/-- C5 counterexample.  On the HyperLiquid route the collector's external
fetch is `hl.get_data(symbol, timeframe, bars, add_indicators)`, not a call
with signature `get_data(token, days_back, timeframe)`: with both helpers
present, `collect_token_data("BTC", 1, "5m", exchange="HYPERLIQUID")`
performs a fetch that fails the claimed shape. -/
theorem C5_counterexample :
    ((collect_token_data (some fun _ _ _ _ => Except.ok (some [1]))
        (some fun _ _ _ => Except.ok (some [1])) (Except.ok ())
        "BTC" 1 "5m" "HYPERLIQUID").2.all is_n_call) = false := by
  rfl

theorem finish_collect_indep (d : Option (List DataRow)) (s1 s2 : Except Unit Unit) :
    finish_collect d s1 = finish_collect d s2 := rfl

theorem collect_save_indep (hl : Option HlHelper) (n : Option NHelper)
    (s1 s2 : Except Unit Unit) (token : String) (db : ℚ) (tf ex : String) :
    collect_token_data hl n s1 token db tf ex =
    collect_token_data hl n s2 token db tf ex := by
  simp only [collect_token_data]
  split
  · cases hl with
    | none => rfl
    | some f =>
      cases hf : f token (hl_timeframe tf) (bars_needed db tf) true with
      | error e => simp [hf]
      | ok d => simp [hf, finish_collect_indep d s1 s2]
  · cases n with
    | none => rfl
    | some f =>
      cases hf : f token db tf with
      | error e => simp [hf]
      | ok d => simp [hf, finish_collect_indep d s1 s2]

/-- C8.  `collect_token_data` either returns the data produced by the
underlying helper's `get_data` call or returns `None`; a missing helper
module, a helper exception, a `None` or empty result all yield `None`, and
the CSV-save outcome never alters the returned data. -/
theorem C8_collector_never_raises :
    (∀ (hl : Option HlHelper) (n : Option NHelper) (s1 s2 : Except Unit Unit)
        (token : String) (db : ℚ) (tf ex : String),
      collect_token_data hl n s1 token db tf ex =
        collect_token_data hl n s2 token db tf ex) ∧
    (∀ (hl : Option HlHelper) (n : Option NHelper) (s : Except Unit Unit)
        (token : String) (db : ℚ) (tf ex : String),
      (collect_token_data hl n s token db tf ex).1 = none ∨
      ∃ rows, (collect_token_data hl n s token db tf ex).1 = some rows ∧ rows ≠ [] ∧
        ((is_hl_route ex = true ∧ ∃ f, hl = some f ∧
            f token (hl_timeframe tf) (bars_needed db tf) true = Except.ok (some rows)) ∨
         (is_hl_route ex = false ∧ ∃ f, n = some f ∧
            f token db tf = Except.ok (some rows)))) := by
  refine ⟨collect_save_indep, ?_⟩
  intro hl n s token db tf ex
  simp only [collect_token_data]
  split
  next hr =>
    cases hl with
    | none => exact Or.inl rfl
    | some f =>
      cases hf : f token (hl_timeframe tf) (bars_needed db tf) true with
      | error e => simp [hf]
      | ok d =>
        cases d with
        | none => simp [hf, finish_collect]
        | some rows =>
          cases he : rows.isEmpty with
          | true => simp [hf, finish_collect, he]
          | false =>
            refine Or.inr ⟨rows, ?_, ?_, Or.inl ⟨hr, f, rfl, hf⟩⟩
            · simp [hf, finish_collect, he]
            · simpa using he
  next hr =>
    have hr' : is_hl_route ex = false := by simpa using hr
    cases n with
    | none => exact Or.inl rfl
    | some f =>
      cases hf : f token db tf with
      | error e => simp [hf]
      | ok d =>
        cases d with
        | none => simp [hf, finish_collect]
        | some rows =>
          cases he : rows.isEmpty with
          | true => simp [hf, finish_collect, he]
          | false =>
            refine Or.inr ⟨rows, ?_, ?_, Or.inr ⟨hr', f, rfl, hf⟩⟩
            · simp [hf, finish_collect, he]
            · simpa using he

theorem signals_loop_congr (cfg : QuadConfig) (v : Signal → Bool)
    (fm : SignalMeta → SignalMeta) (d1 d2 : String → ℚ → String → Option MarketData)
    (toks : List String) (h : ∀ t ∈ toks, d1 t 5 "15m" = d2 t 5 "15m") :
    signals_loop cfg v fm d1 toks = signals_loop cfg v fm d2 toks := by
  induction toks with
  | nil => rfl
  | cons t rest ih =>
    have ht : d1 t 5 "15m" = d2 t 5 "15m" := h t (List.mem_cons_self t rest)
    show (match token_signal cfg v fm (d1 t 5 "15m") t with
          | Except.error e => Except.error e
          | Except.ok (some s) => Except.ok (some s)
          | Except.ok none => signals_loop cfg v fm d1 rest) =
        (match token_signal cfg v fm (d2 t 5 "15m") t with
          | Except.error e => Except.error e
          | Except.ok (some s) => Except.ok (some s)
          | Except.ok none => signals_loop cfg v fm d2 rest)
    rw [ht, ih fun u hu => h u (List.mem_cons_of_mem t hu)]

/-- C5 counterexample helper: the collector performs exactly the routed call
(or none when the route's helper module is missing). -/
theorem collect_calls_routed (hl : Option HlHelper) (n : Option NHelper)
    (s : Except Unit Unit) (token : String) (db : ℚ) (tf ex : String) :
    (collect_token_data hl n s token db tf ex).2 = [] ∨
    (collect_token_data hl n s token db tf ex).2 = [routed_call token db tf ex] := by
  simp only [collect_token_data, routed_call]
  split
  next hr =>
    cases hl with
    | none => exact Or.inl rfl
    | some f =>
      cases hf : f token (hl_timeframe tf) (bars_needed db tf) true with
      | error e => exact Or.inr (by simp [hf])
      | ok d => exact Or.inr (by simp [hf])
  next hr =>
    cases n with
    | none => exact Or.inl rfl
    | some f =>
      cases hf : f token db tf with
      | error e => exact Or.inr (by simp [hf])
      | ok d => exact Or.inr (by simp [hf])

/-- C5 (amended).  The Solana route of the collector and the strategy fetch
market data through `get_data(token, days_back, timeframe)`; the
HYPERLIQUID/ASTER/EXTENDED routes instead call the HyperLiquid helper's
`get_data(symbol, timeframe, bars, add_indicators)` with the converted
timeframe and the bar count derived from `days_back`.  The strategy consults
its helper only at `(token, 5, '15m')` for monitored tokens. -/
theorem C5_amended_fetch_shapes :
    (∀ (hl : Option HlHelper) (n : Option NHelper) (s : Except Unit Unit)
        (token : String) (db : ℚ) (tf ex : String),
      (collect_token_data hl n s token db tf ex).2 = [] ∨
      (collect_token_data hl n s token db tf ex).2 =
        [if is_hl_route ex then
            ExtCall.hl_get_data token (hl_timeframe tf) (bars_needed db tf) true
          else ExtCall.n_get_data token db tf]) ∧
    (∀ (toks : List String) (v : Signal → Bool) (fm : SignalMeta → SignalMeta)
        (d1 d2 : String → ℚ → String → Option MarketData),
      (∀ t ∈ toks, d1 t 5 "15m" = d2 t 5 "15m") →
      generate_signals quadInit toks v fm d1 = generate_signals quadInit toks v fm d2) := by
  constructor
  · intro hl n s token db tf ex
    simpa only [routed_call] using collect_calls_routed hl n s token db tf ex
  · intro toks v fm d1 d2 h
    simp only [generate_signals, signals_loop_congr quadInit v fm d1 d2 toks h]

/-- Witness for C5 (amended): two helpers that agree at `(·, 5, '15m')` but
differ elsewhere give the same signal for the monitored token list
`["BTC"]`. -/
theorem C5_amended_witness :
    generate_signals quadInit ["BTC"] (fun _ => true) id (fun _ _ _ => none) =
    generate_signals quadInit ["BTC"] (fun _ => true) id
      (fun _ db tf => if db = 5 ∧ tf = "15m" then none else some ⟨[], []⟩) := by
  refine C5_amended_fetch_shapes.2 ["BTC"] (fun _ => true) id _ _ ?_
  intro t ht
  simp

/-- C7.  The strategy's signal computation is stateless and deterministic:
`generate_signals` returns the strategy state unchanged, and two runs whose
`get_data` helper returns the same market data for every monitored token
return the same signal (or `None` in both runs). -/
theorem C7_signals_stateless_deterministic :
    (∀ (cfg : QuadConfig) (toks : List String) (v : Signal → Bool)
        (fm : SignalMeta → SignalMeta) (d : String → ℚ → String → Option MarketData),
      (generate_signals cfg toks v fm d).1 = cfg) ∧
    (∀ (cfg : QuadConfig) (toks : List String) (v : Signal → Bool)
        (fm : SignalMeta → SignalMeta)
        (d1 d2 : String → ℚ → String → Option MarketData),
      (∀ t ∈ toks, d1 t 5 "15m" = d2 t 5 "15m") →
      generate_signals cfg toks v fm d1 = generate_signals cfg toks v fm d2) := by
  constructor
  · intro cfg toks v fm d
    rfl
  · intro cfg toks v fm d1 d2 h
    simp only [generate_signals, signals_loop_congr cfg v fm d1 d2 toks h]

/-- Witness for C7: two helpers that agree on the monitored token "ETH" at
`(5, '15m')` produce identical runs. -/
theorem C7_witness :
    (generate_signals quadInit ["ETH"] (fun _ => true) id
        (fun _ _ _ => some ⟨["open", "high", "low", "close"], []⟩)).1 = quadInit ∧
    generate_signals quadInit ["ETH"] (fun _ => true) id
        (fun _ _ _ => some ⟨["open", "high", "low", "close"], []⟩) =
      generate_signals quadInit ["ETH"] (fun _ => true) id
        (fun t _ _ => if t = "ETH" then some ⟨["open", "high", "low", "close"], []⟩
                      else none) := by
  constructor
  · exact C7_signals_stateless_deterministic.1 quadInit ["ETH"] (fun _ => true) id _
  · refine C7_signals_stateless_deterministic.2 quadInit ["ETH"] (fun _ => true) id _ _ ?_
    intro t ht
    simp only [List.mem_singleton] at ht
    simp [ht]

theorem wavg_cell (x1 x2 x3 x4 : ℚ) :
    (0 + ((x1 - 50) * (1/5) + 50) + ((x2 - 50) * (3/5) + 50) + ((x3 - 50) * (7/5) + 50)
        + ((x4 - 50) * (9/5) + 50)) / 4
    = 50 + ((1/5) * (x1 - 50) + (3/5) * (x2 - 50) + (7/5) * (x3 - 50)
        + (9/5) * (x4 - 50)) / total_weight := by
  have htw : total_weight = 4 := by norm_num [total_weight, stoch_configs]
  rw [htw]
  ring

theorem wavg_lists (s1 s2 s3 s4 : Series) :
    (seriesAdd (seriesAdd (seriesAdd (seriesAdd (zeroSeries s1.length)
        (centeredSeries s1 (1/5))) (centeredSeries s2 (3/5)))
        (centeredSeries s3 (7/5))) (centeredSeries s4 (9/5))).map
      (Option.map fun x => x / (4 : ℚ))
    = ref_weighted_average ⟨s1, s2, s3, s4⟩ := by
  induction s1 generalizing s2 s3 s4 with
  | nil => rfl
  | cons a s1 ih =>
    cases s2 with
    | nil => rfl
    | cons b s2 =>
      cases s3 with
      | nil => rfl
      | cons c s3 =>
        cases s4 with
        | nil => rfl
        | cons d s4 =>
          simp only [zeroSeries, List.length_cons, List.replicate_succ, centeredSeries,
            List.map_cons, seriesAdd, List.zipWith_cons_cons, ref_weighted_average,
            zipWith4, List.cons.injEq]
          constructor
          · rcases a with _ | x1
            · rfl
            · rcases b with _ | x2
              · rfl
              · rcases c with _ | x3
                · rfl
                · rcases d with _ | x4
                  · rfl
                  · simp only [addCell, Option.map_some]
                    exact congrArg some (wavg_cell x1 x2 x3 x4)
          · exact ih s2 s3 s4

/-- C9.  With the constructor's weights 0.2, 0.6, 1.4, 1.8 (sum 4),
`calculate_weighted_average` — which divides the accumulated weight-centered
series by the number of stochastics rather than by `total_weight` — coincides
exactly with the weight-normalized reference
`50 + (Σᵢ wᵢ (sᵢ − 50)) / (Σᵢ wᵢ)` over exact arithmetic. -/
theorem C9_weighted_average_equiv :
    total_weight = 4 ∧
    ∀ sv : StochD, calculate_weighted_average sv = ref_weighted_average sv := by
  constructor
  · norm_num [total_weight, stoch_configs]
  · intro sv
    obtain ⟨s1, s2, s3, s4⟩ := sv
    have h := wavg_lists s1 s2 s3 s4
    simpa [calculate_weighted_average, stoch_configs, svLookup] using h

theorem slope_up_step_le (level : ℚ) (cnt : ℕ) (s : Series) :
    slope_up_step level cnt s ≤ cnt + 1 := by
  unfold slope_up_step
  split
  · omega
  · split
    · split <;> omega
    · omega

theorem slope_down_step_le (level : ℚ) (cnt : ℕ) (s : Series) :
    slope_down_step level cnt s ≤ cnt + 1 := by
  unfold slope_down_step
  split
  · omega
  · split
    · split <;> omega
    · omega

theorem foldl_step_le (f : ℕ → Series → ℕ) (hf : ∀ c s, f c s ≤ c + 1) :
    ∀ (svs : List Series) (n : ℕ), svs.foldl f n ≤ n + svs.length := by
  intro svs
  induction svs with
  | nil => intro n; simp
  | cons s rest ih =>
    intro n
    have h1 : (s :: rest).foldl f n = rest.foldl f (f n s) := rfl
    have h2 := ih (f n s)
    have h3 := hf n s
    simp only [List.length_cons]
    omega

theorem count_up_le_four (svs : List Series) (level : ℚ) (h : svs.length = 4) :
    count_stochs_sloping_up_below svs level ≤ 4 := by
  have hx := foldl_step_le (slope_up_step level) (slope_up_step_le level) svs 0
  unfold count_stochs_sloping_up_below
  omega

theorem count_down_le_four (svs : List Series) (level : ℚ) (h : svs.length = 4) :
    count_stochs_sloping_down_above svs level ≤ 4 := by
  have hx := foldl_step_le (slope_down_step level) (slope_down_step_le level) svs 0
  unfold count_stochs_sloping_down_above
  omega

theorem super_up_stoch1 (cfg : QuadConfig) (sv : StochD)
    (h : check_super_signal_up cfg (stochList sv) = true) :
    ∃ cur prev, iloc1 sv.stoch1 = some cur ∧ iloc2 sv.stoch1 = some prev ∧
      cur < cfg.extreme_oversold ∧ prev < cur := by
  unfold check_super_signal_up at h
  split at h
  · cases h
  · rw [List.all_eq_true] at h
    have h1 := h sv.stoch1 (by simp [stochList])
    split at h1
    · cases h1
    · rcases hcur : iloc1 sv.stoch1 with _ | cur
      · rw [hcur] at h1; cases h1
      · rcases hprev : iloc2 sv.stoch1 with _ | prev
        · rw [hcur, hprev] at h1; cases h1
        · rw [hcur, hprev] at h1
          simp only [Bool.and_eq_true, decide_eq_true_eq] at h1
          exact ⟨cur, prev, rfl, rfl, h1.1, h1.2⟩

theorem super_down_stoch1 (cfg : QuadConfig) (sv : StochD)
    (h : check_super_signal_down cfg (stochList sv) = true) :
    ∃ cur prev, iloc1 sv.stoch1 = some cur ∧ iloc2 sv.stoch1 = some prev ∧
      cfg.extreme_overbought < cur ∧ cur < prev := by
  unfold check_super_signal_down at h
  split at h
  · cases h
  · rw [List.all_eq_true] at h
    have h1 := h sv.stoch1 (by simp [stochList])
    split at h1
    · cases h1
    · rcases hcur : iloc1 sv.stoch1 with _ | cur
      · rw [hcur] at h1; cases h1
      · rcases hprev : iloc2 sv.stoch1 with _ | prev
        · rw [hcur, hprev] at h1; cases h1
        · rw [hcur, hprev] at h1
          simp only [Bool.and_eq_true, decide_eq_true_eq] at h1
          exact ⟨cur, prev, rfl, rfl, h1.1, h1.2⟩

theorem strength_range (super : Bool) (count : ℕ)
    (h3 : 3 ≤ count ∨ super = true) (h4 : count ≤ 4) :
    7/10 ≤ strength super count ∧ strength super count ≤ 1 := by
  cases super with
  | true =>
    unfold strength
    norm_num
  | false =>
    have h3' : 3 ≤ count := h3.resolve_right (by simp)
    have hc3 : (3 : ℚ) ≤ (count : ℚ) := by exact_mod_cast h3'
    have hc4 : (count : ℚ) ≤ 4 := by exact_mod_cast h4
    unfold strength
    simp only [Bool.false_eq_true, if_false, if_neg]
    constructor <;> nlinarith

theorem build_signal_cases (cfg : QuadConfig) (sv : StochD) (price : ℚ)
    (token : String) (sig : Signal)
    (h : build_signal cfg sv price token = some sig) :
    ∃ cur avg, iloc1 sv.stoch1 = some cur ∧
      iloc1 (calculate_weighted_average sv) = some avg ∧
      ((sig.direction = "BUY" ∧
        sig.signal = strength (check_super_signal_up cfg (stochList sv))
          (count_stochs_sloping_up_below (stochList sv) cfg.oversold) ∧
        (cfg.min_stoch_agreement ≤
            count_stochs_sloping_up_below (stochList sv) cfg.oversold ∨
          check_super_signal_up cfg (stochList sv) = true) ∧
        bullish_trigger cfg (iloc2 sv.stoch1) cur avg = true) ∨
       (sig.direction = "SELL" ∧
        sig.signal = strength (check_super_signal_down cfg (stochList sv))
          (count_stochs_sloping_down_above (stochList sv) cfg.overbought) ∧
        (cfg.min_stoch_agreement ≤
            count_stochs_sloping_down_above (stochList sv) cfg.overbought ∨
          check_super_signal_down cfg (stochList sv) = true) ∧
        bearish_trigger cfg (iloc2 sv.stoch1) cur avg = true)) := by
  unfold build_signal at h
  rcases hcur : iloc1 sv.stoch1 with _ | cur
  · rw [hcur] at h; cases h
  · rw [hcur] at h
    simp only [] at h
    rcases havg : iloc1 (calculate_weighted_average sv) with _ | avg
    · rw [havg] at h; cases h
    · rw [havg] at h
      simp only [] at h
      refine ⟨cur, avg, rfl, rfl, ?_⟩
      by_cases hbear : (bearish_trigger cfg (iloc2 sv.stoch1) cur avg
          && (decide (cfg.min_stoch_agreement ≤
                count_stochs_sloping_down_above (stochList sv) cfg.overbought)
              || check_super_signal_down cfg (stochList sv))
          && !check_trend_shield_bullish cfg sv.stoch4) = true
      · rw [if_pos hbear] at h
        injection h with h'
        subst h'
        simp only [Bool.and_eq_true, Bool.or_eq_true, decide_eq_true_eq] at hbear
        exact Or.inr ⟨rfl, rfl, hbear.1.2, hbear.1.1⟩
      · rw [if_neg hbear] at h
        by_cases hbull : (bullish_trigger cfg (iloc2 sv.stoch1) cur avg
            && (decide (cfg.min_stoch_agreement ≤
                  count_stochs_sloping_up_below (stochList sv) cfg.oversold)
                || check_super_signal_up cfg (stochList sv))
            && !check_trend_shield_bearish cfg sv.stoch4) = true
        · rw [if_pos hbull] at h
          injection h with h'
          subst h'
          simp only [Bool.and_eq_true, Bool.or_eq_true, decide_eq_true_eq] at hbull
          exact Or.inl ⟨rfl, rfl, hbull.1.2, hbull.1.1⟩
        · rw [if_neg hbull] at h
          exact Option.noConfusion h

theorem token_signal_some (cfg : QuadConfig) (v : Signal → Bool)
    (fm : SignalMeta → SignalMeta) (dataOpt : Option MarketData) (token : String)
    (sig : Signal) (h : token_signal cfg v fm dataOpt token = Except.ok (some sig)) :
    ∃ sv price sig0, build_signal cfg sv price token = some sig0 ∧
      sig.direction = sig0.direction ∧ sig.signal = sig0.signal := by
  unfold token_signal at h
  cases dataOpt with
  | none =>
    injection h with h'
    exact Option.noConfusion h'
  | some data =>
    simp only [] at h
    by_cases h1 : data.rows.isEmpty = true
    · rw [if_pos h1] at h
      injection h with h'
      exact Option.noConfusion h'
    · rw [if_neg h1] at h
      by_cases h2 : (!has_ohlc data) = true
      · rw [if_pos h2] at h
        injection h with h'
        exact Option.noConfusion h'
      · rw [if_neg h2] at h
        by_cases h3 : data.rows.length < 2
        · rw [if_pos h3] at h
          exact Except.noConfusion h
        · rw [if_neg h3] at h
          split at h
          · injection h with h'
            exact Option.noConfusion h'
          · rename_i sig0 hb
            split at h
            · injection h with h'
              injection h' with h''
              subst h''
              exact ⟨_, _, sig0, hb, rfl, rfl⟩
            · injection h with h'
              exact Option.noConfusion h'

theorem signals_loop_some (cfg : QuadConfig) (v : Signal → Bool)
    (fm : SignalMeta → SignalMeta) (d : String → ℚ → String → Option MarketData)
    (toks : List String) (sig : Signal)
    (h : signals_loop cfg v fm d toks = Except.ok (some sig)) :
    ∃ token sv price sig0, build_signal cfg sv price token = some sig0 ∧
      sig.direction = sig0.direction ∧ sig.signal = sig0.signal := by
  induction toks with
  | nil =>
    injection h with h'
    exact Option.noConfusion h'
  | cons t rest ih =>
    rw [show signals_loop cfg v fm d (t :: rest) =
        (match token_signal cfg v fm (d t 5 "15m") t with
          | Except.error e => Except.error e
          | Except.ok (some s) => Except.ok (some s)
          | Except.ok none => signals_loop cfg v fm d rest) from rfl] at h
    cases hts : token_signal cfg v fm (d t 5 "15m") t with
    | error e =>
      rw [hts] at h
      exact Except.noConfusion h
    | ok r =>
      rw [hts] at h
      cases r with
      | none => exact ih h
      | some s =>
        injection h with h'
        injection h' with h''
        rw [h''] at hts
        obtain ⟨sv, price, sig0, hb, hdir, hsig⟩ :=
          token_signal_some cfg v fm (d t 5 "15m") t sig hts
        exact ⟨t, sv, price, sig0, hb, hdir, hsig⟩

theorem super_down_no_bull (sv : StochD) (cur avg : ℚ)
    (hcur : iloc1 sv.stoch1 = some cur)
    (hsd : check_super_signal_down quadInit (stochList sv) = true)
    (htrig : bullish_trigger quadInit (iloc2 sv.stoch1) cur avg = true) : False := by
  obtain ⟨cur', prev', hcur', hprev', hgt, hlt⟩ := super_down_stoch1 quadInit sv hsd
  rw [hcur] at hcur'
  injection hcur' with he
  subst he
  simp only [bullish_trigger, Bool.and_eq_true, decide_eq_true_eq] at htrig
  obtain ⟨⟨hple, _⟩, _⟩ := htrig
  rw [hprev'] at hple
  simp only [pyLeLevel, decide_eq_true_eq] at hple
  have h1 : quadInit.oversold = 20 := rfl
  have h2 : quadInit.extreme_overbought = 90 := rfl
  rw [h1] at hple
  rw [h2] at hgt
  linarith

theorem super_up_no_bear (sv : StochD) (cur avg : ℚ)
    (hcur : iloc1 sv.stoch1 = some cur)
    (hsu : check_super_signal_up quadInit (stochList sv) = true)
    (htrig : bearish_trigger quadInit (iloc2 sv.stoch1) cur avg = true) : False := by
  obtain ⟨cur', prev', hcur', hprev', hlt10, hslope⟩ := super_up_stoch1 quadInit sv hsu
  rw [hcur] at hcur'
  injection hcur' with he
  subst he
  simp only [bearish_trigger, Bool.and_eq_true, decide_eq_true_eq] at htrig
  obtain ⟨⟨hpge, _⟩, _⟩ := htrig
  rw [hprev'] at hpge
  simp only [pyGeLevel, decide_eq_true_eq] at hpge
  have h1 : quadInit.overbought = 80 := rfl
  have h2 : quadInit.extreme_oversold = 10 := rfl
  rw [h1] at hpge
  rw [h2] at hlt10
  linarith

/-- C10.  Whenever `generate_signals` returns a non-`None` result, its
direction is `BUY` or `SELL` and its signal strength lies in [0.7, 1.0];
the strength is exactly 1.0 when a super signal (all four stochastics in the
extreme zone and turning) is present and `0.7 + agreement/4 · 0.3` with
`agreement ≥ 3` otherwise; and the bullish and bearish triggers are mutually
exclusive on any single bar, one requiring `stoch1` above the weighted
average and the other below it. -/
theorem C10_signal_strength_invariant :
    (∀ (toks : List String) (v : Signal → Bool) (fm : SignalMeta → SignalMeta)
        (d : String → ℚ → String → Option MarketData) (sig : Signal),
      (generate_signals quadInit toks v fm d).2 = some sig →
      (sig.direction = "BUY" ∨ sig.direction = "SELL") ∧
      7/10 ≤ sig.signal ∧ sig.signal ≤ 1) ∧
    (∀ (sv : StochD) (price : ℚ) (token : String) (sig : Signal),
      build_signal quadInit sv price token = some sig →
      ((check_super_signal_up quadInit (stochList sv)
          || check_super_signal_down quadInit (stochList sv)) = true →
        sig.signal = 1) ∧
      ((check_super_signal_up quadInit (stochList sv)
          || check_super_signal_down quadInit (stochList sv)) = false →
        ∃ ac : ℕ, 3 ≤ ac ∧ ac ≤ 4 ∧
          sig.signal = 7/10 + (ac : ℚ)/4 * (3/10))) ∧
    (∀ (prev : Option ℚ) (cur avg : ℚ),
      bullish_trigger quadInit prev cur avg = true →
      bearish_trigger quadInit prev cur avg = true → False) := by
  refine ⟨?_, ?_, ?_⟩
  · intro toks v fm d sig h
    unfold generate_signals at h
    simp only [] at h
    cases hs : signals_loop quadInit v fm d toks with
    | error e =>
      rw [hs] at h
      exact Option.noConfusion h
    | ok r =>
      rw [hs] at h
      cases r with
      | none => exact Option.noConfusion h
      | some s =>
        injection h with h'
        rw [h'] at hs
        obtain ⟨token, sv, price, sig0, hb, hdir, hsig⟩ :=
          signals_loop_some quadInit v fm d toks sig hs
        obtain ⟨cur, avg, hcur, havg, hcase⟩ :=
          build_signal_cases quadInit sv price token sig0 hb
        rcases hcase with ⟨hd, hstr, hconf, _⟩ | ⟨hd, hstr, hconf, _⟩
        · have hrange := strength_range _ _ hconf (count_up_le_four (stochList sv) _ rfl)
          rw [hdir, hd, hsig, hstr]
          exact ⟨Or.inl rfl, hrange.1, hrange.2⟩
        · have hrange := strength_range _ _ hconf (count_down_le_four (stochList sv) _ rfl)
          rw [hdir, hd, hsig, hstr]
          exact ⟨Or.inr rfl, hrange.1, hrange.2⟩
  · intro sv price token sig h
    obtain ⟨cur, avg, hcur, havg, hcase⟩ :=
      build_signal_cases quadInit sv price token sig h
    constructor
    · intro hsup
      rcases hcase with ⟨hd, hstr, hconf, htrig⟩ | ⟨hd, hstr, hconf, htrig⟩
      · cases hsu : check_super_signal_up quadInit (stochList sv) with
        | true =>
          rw [hstr, hsu]
          rfl
        | false =>
          rw [hsu] at hsup
          simp only [Bool.false_or] at hsup
          exact absurd hsup (fun hsd => super_down_no_bull sv cur avg hcur hsd htrig)
      · cases hsd : check_super_signal_down quadInit (stochList sv) with
        | true =>
          rw [hstr, hsd]
          rfl
        | false =>
          rw [hsd] at hsup
          simp only [Bool.or_false] at hsup
          exact absurd hsup (fun hsu => super_up_no_bear sv cur avg hcur hsu htrig)
    · intro hsup
      have hsu : check_super_signal_up quadInit (stochList sv) = false :=
        (Bool.or_eq_false_iff.mp hsup).1
      have hsd : check_super_signal_down quadInit (stochList sv) = false :=
        (Bool.or_eq_false_iff.mp hsup).2
      rcases hcase with ⟨hd, hstr, hconf, htrig⟩ | ⟨hd, hstr, hconf, htrig⟩
      · refine ⟨count_stochs_sloping_up_below (stochList sv) quadInit.oversold,
          hconf.resolve_right (by simp [hsu]), count_up_le_four (stochList sv) _ rfl, ?_⟩
        rw [hstr, hsu]
        simp [strength]
      · refine ⟨count_stochs_sloping_down_above (stochList sv) quadInit.overbought,
          hconf.resolve_right (by simp [hsd]), count_down_le_four (stochList sv) _ rfl, ?_⟩
        rw [hstr, hsd]
        simp [strength]
  · intro prev cur avg hb hs
    simp only [bullish_trigger, bearish_trigger, Bool.and_eq_true,
      decide_eq_true_eq] at hb hs
    exact absurd hb.2 (not_lt_of_lt hs.2)

/-- Witness for C10 at the concrete stochastic state `wsv`: the strategy
builds a BUY signal with no super signal present, and its strength is
`0.7 + ac/4 · 0.3` for an agreement count `ac ≥ 3`. -/
theorem C10_witness :
    build_signal quadInit wsv 100 "BTC" = some wsig ∧
    ∃ ac : ℕ, 3 ≤ ac ∧ ac ≤ 4 ∧ wsig.signal = 7/10 + (ac : ℚ)/4 * (3/10) := by
  have hb : build_signal quadInit wsv 100 "BTC" = some wsig := by
    norm_num [build_signal, calculate_weighted_average, stoch_configs, svLookup,
      seriesAdd, addCell, centeredSeries, zeroSeries, iloc1, iloc2, stochList,
      count_stochs_sloping_up_below, count_stochs_sloping_down_above,
      slope_up_step, slope_down_step, check_super_signal_up, check_super_signal_down,
      check_trend_shield_bullish, check_trend_shield_bearish, bullish_trigger,
      bearish_trigger, pyLeLevel, pyGeLevel, strength, wsv, wsig, List.zipWith,
      List.foldl, List.all, List.filterMap, List.replicate, List.get?, quadInit]
    exact ⟨by decide, by decide⟩
  refine ⟨hb, (C10_signal_strength_invariant.2.1 wsv 100 "BTC" wsig hb).2 ?_⟩
  norm_num [check_super_signal_up, check_super_signal_down, stochList, wsv,
    iloc1, iloc2, List.all, List.get?, quadInit]

end Spec2Proof

